import Mathlib

/-!
Shallow embedding of the dormitory-management API server (src/server.js and
src/unnamed/part_000, the MySQL pool module).  The relational store is modelled
as lists of rows; each HTTP handler that the claims depend on becomes a pure
function from a `DB` state (plus the request body) to `Except ApiError` of the
successor state and response payload.  SQL queries are translated
query-by-query: `SELECT ... WHERE c = ?` becomes `List.find?`/`List.filter`
with `==` on the column, `UPDATE ... WHERE` becomes a conditional `List.map`,
`DELETE ... WHERE` a `List.filter`, and `INSERT` an append together with the
auto-increment counter carried in the state.  JavaScript truthiness of the
`x || fallback` idiom (null / undefined / empty string are falsy) is modelled
by `orNull` / `orDefault` on `Option String`.
-/

namespace RentalApi

/-- JS `x || null`: an absent or empty string becomes null. -/
def orNull (s : Option String) : Option String :=
  match s with
  | some "" => none
  | some v => some v
  | none => none

/-- JS `x || d`: an absent or empty string falls back to the default `d`. -/
def orDefault (s : Option String) (d : String) : String :=
  match orNull s with
  | some v => v
  | none => d

/-- External collaborator (bcrypt): modelled as an injective tagging of the
plaintext; no claim depends on the digest's value. -/
def bcryptHash (plain : String) : String := "hashed:" ++ plain

/-- A row of the `rooms` table (room_id, room_number, rent, description,
status).  `status` is the raw string column ('available' / 'occupied' are the
values the handlers write, but POST /api/rooms stores whatever the request
supplies). -/
structure Room where
  room_id : Nat
  room_number : String
  rent : Nat
  description : String
  status : String
deriving DecidableEq

/-- A row of the `users` table. -/
structure User where
  user_id : Nat
  username : String
  password : String
  full_name : Option String
  phone_number : Option String
  line_id : Option String
  role : Option String
  room_number : Option String
deriving DecidableEq

/-- A row of the `bills` table. -/
structure Bill where
  bill_id : Nat
  user_id : Nat
  room_number : String
  water_units : Nat
  electricity_units : Nat
  water_rate : Nat
  electricity_rate : Nat
  rent_amount : Nat
  total_amount : Nat
  due_date : String
  meter : Option String
  slip_path : Option String
  payment_state : String
  paid_date : Option String
deriving DecidableEq

/-- A row of the `payment_history` table. -/
structure PaymentRecord where
  payment_id : Nat
  bill_id : Nat
  amount_paid : Nat
  payment_date : String
  slip_path : Option String
deriving DecidableEq

/-- The relational store: the four tables the claims touch plus the
auto-increment counters. -/
structure DB where
  rooms : List Room
  users : List User
  bills : List Bill
  payment_history : List PaymentRecord
  next_room_id : Nat
  next_user_id : Nat
  next_bill_id : Nat
  next_payment_id : Nat
deriving DecidableEq

/-- The distinct error responses of the handlers involved in the claims (the
wire format maps each to an HTTP status and message; only identity matters
here). -/
inductive ApiError
  | validationFailed
  | duplicateUsername
  | roomNotFound
  | roomOccupied
  | duplicateRoomNumber
  | invalidRent
  | tenantNotFound
  | billNotFound
  | billsNotFound
  | historyNotFound
  | serverError
deriving DecidableEq

/-- Whether a handler call succeeded. -/
def isOkE {α : Type} (e : Except ApiError α) : Bool :=
  match e with
  | .ok _ => true
  | .error _ => false

/-! ## POST /api/register -/

structure RegisterReq where
  username : String
  password : String
  full_name : Option String
  phone_number : Option String
  line_id : Option String
  role : Option String
  room_number : Option String
deriving DecidableEq

/-- The users-row built by the INSERT of POST /api/register (role defaults to
'user', optional fields fall back to NULL). -/
def mkUser (db : DB) (req : RegisterReq) (rn? : Option String) : User :=
  { user_id := db.next_user_id
    username := req.username
    password := bcryptHash req.password
    full_name := orNull req.full_name
    phone_number := orNull req.phone_number
    line_id := orNull req.line_id
    role := some (orDefault req.role "user")
    room_number := rn? }

/-- `UPDATE rooms SET status = ? WHERE room_number = ?`. -/
def setRoomStatus (db : DB) (rn : String) (st : String) : DB :=
  { db with rooms := db.rooms.map fun r =>
      if r.room_number == rn then { r with status := st } else r }

/-- POST /api/register.  Validators: username notEmpty, password length ≥ 6.
If a room number is supplied (and nonempty): reject if some rooms row with
that number has status 'occupied', then reject if no rooms row with that
number exists; insert the user (a duplicate username violates the UNIQUE key,
surfaced by the handler's ER_DUP_ENTRY branch); finally set the room's status
to 'occupied'. -/
def register (db : DB) (req : RegisterReq) : Except ApiError (DB × Nat) :=
  if req.username = "" then .error .validationFailed
  else if req.password.length < 6 then .error .validationFailed
  else
    match orNull req.room_number with
    | some rn =>
      if db.rooms.any (fun r => r.room_number == rn && r.status == "occupied") then
        .error .roomOccupied
      else if !(db.rooms.any fun r => r.room_number == rn) then
        .error .roomNotFound
      else if db.users.any (fun u => u.username == req.username) then
        .error .duplicateUsername
      else
        let db1 : DB := { db with
          users := db.users ++ [mkUser db req (some rn)]
          next_user_id := db.next_user_id + 1 }
        .ok (setRoomStatus db1 rn "occupied", db.next_user_id)
    | none =>
      if db.users.any (fun u => u.username == req.username) then
        .error .duplicateUsername
      else
        .ok ({ db with
          users := db.users ++ [mkUser db req none]
          next_user_id := db.next_user_id + 1 }, db.next_user_id)

/-! ## PUT /api/users/:user_id -/

structure UpdateUserReq where
  username : String
  password : Option String
  full_name : Option String
  phone_number : Option String
  line_id : Option String
  role : Option String
  room_number : String
deriving DecidableEq

/-- The column assignments of the UPDATE users statement (password only when a
truthy one was sent; role falls back to NULL when omitted). -/
def applyUserFields (req : UpdateUserReq) (u : User) : User :=
  { u with
    username := req.username
    full_name := orNull req.full_name
    phone_number := orNull req.phone_number
    line_id := orNull req.line_id
    role := orNull req.role
    room_number := some req.room_number
    password :=
      match req.password with
      | some p => if p = "" then u.password else bcryptHash p
      | none => u.password }

/-- Step 1 of PUT /api/users/:user_id: when the user's old room number is
truthy and differs from the target, set it to 'available'.  This UPDATE is
committed on its own — the handler uses no transaction — so a later failure
leaves it in place. -/
def releaseOldRoom (db : DB) (target : String) (u0 : User) : DB :=
  match u0.room_number with
  | some o => if o ≠ "" ∧ o ≠ target then setRoomStatus db o "available" else db
  | none => db

/-- Step 3 of PUT /api/users/:user_id: the `UPDATE users` statement.  The
username column carries a unique key (enforced by the store, spec section 6,
and relied on by the register handler's ER_DUP_ENTRY branch), so when another
row already holds the requested username the statement raises ER_DUP_ENTRY;
the handler's generic catch maps that to a 500 with the room writes already
committed.  Otherwise the row is rewritten and the call succeeds. -/
def rewriteUserRow (db2 : DB) (uid : Nat) (req : UpdateUserReq) :
    DB × Except ApiError Unit :=
  if db2.users.any (fun u => u.username == req.username && u.user_id != uid) then
    (db2, .error .serverError)
  else
    ({ db2 with users := db2.users.map fun u =>
        if u.user_id == uid then applyUserFields req u else u }, .ok ())

/-- Steps 2–3 of PUT /api/users/:user_id.  When a rooms row carries the target
number it is set to 'occupied' and the user row is rewritten.  When none does,
the handler attempts the placeholder INSERT whose column list names
room_number twice (`INSERT INTO rooms (room_number, room_number, size, rent,
status) ...`); MySQL rejects such a statement outright with error 1110
(column specified twice) before writing anything, so no rooms row is ever
inserted and the generic catch returns a 500 — with step 1's release already
committed. -/
def claimAndRewrite (db1 : DB) (uid : Nat) (req : UpdateUserReq) :
    DB × Except ApiError Unit :=
  if db1.rooms.any (fun r => r.room_number == req.room_number) then
    rewriteUserRow (setRoomStatus db1 req.room_number "occupied") uid req
  else
    (db1, .error .serverError)

/-- Steps 1–3 of PUT /api/users/:user_id once the up-front checks passed:
release the old room, then claim the target room and rewrite the user row,
returning the store as committed so far together with the response. -/
def performMove (db : DB) (uid : Nat) (req : UpdateUserReq) (u0 : User) :
    DB × Except ApiError Unit :=
  claimAndRewrite (releaseOldRoom db req.room_number u0) uid req

/-- PUT /api/users/:user_id.  Validators: username and room_number notEmpty.
Look up the user (404 when absent); reject `roomOccupied` if any other user
already references the target room number; then run the three mutation steps
(see `performMove`).  Every outcome returns the store as committed at that
point — the handler runs its queries without a transaction, so the mid-way
500s (malformed placeholder INSERT on an unknown target room; ER_DUP_ENTRY on
the users UPDATE) leave the earlier room writes in place. -/
def updateUser (db : DB) (uid : Nat) (req : UpdateUserReq) :
    DB × Except ApiError Unit :=
  if req.username = "" then (db, .error .validationFailed)
  else if req.room_number = "" then (db, .error .validationFailed)
  else
    match db.users.find? (fun u => u.user_id == uid) with
    | none => (db, .error .tenantNotFound)
    | some currentUser =>
      if db.users.any (fun u => u.room_number == some req.room_number && u.user_id != uid) then
        (db, .error .roomOccupied)
      else
        performMove db uid req currentUser

/-- The rooms-list shape after step 1 of PUT /api/users/:user_id: every row
not carrying the target number is released (made 'available') when it was the
user's old room, and untouched otherwise. -/
def ReleasedRooms (db : DB) (u0 : User) (target : String) (rooms1 : List Room) : Prop :=
  ∀ r1 ∈ rooms1, r1.room_number ≠ target →
    (u0.room_number = some r1.room_number → r1.status = "available") ∧
    (u0.room_number ≠ some r1.room_number → r1 ∈ db.rooms)

/-- The rooms-list shape after steps 1–2 of PUT /api/users/:user_id: rows
carrying the target number are 'occupied', the user's old room is 'available',
everything else is an untouched row of the original store. -/
def MovedRooms (db : DB) (u0 : User) (target : String) (rooms2 : List Room) : Prop :=
  ∀ r' ∈ rooms2,
    (r'.room_number = target → r'.status = "occupied") ∧
    (r'.room_number ≠ target → u0.room_number = some r'.room_number →
      r'.status = "available") ∧
    (r'.room_number ≠ target → u0.room_number ≠ some r'.room_number → r' ∈ db.rooms)

/-! ## DELETE /api/users/:user_id -/

/-- DELETE /api/users/:user_id.  Look up the user, delete the row, and when the
user referenced a (truthy) room number set that room's status to
'available'. -/
def deleteUser (db : DB) (uid : Nat) : Except ApiError DB :=
  match db.users.find? (fun u => u.user_id == uid) with
  | none => .error .tenantNotFound
  | some u =>
    let db1 : DB := { db with users := db.users.filter fun v => v.user_id != uid }
    match u.room_number with
    | some rn => if rn ≠ "" then .ok (setRoomStatus db1 rn "available") else .ok db1
    | none => .ok db1

/-! ## POST /api/rooms -/

structure CreateRoomReq where
  room_number : String
  rent : Nat
  description : Option String
  status : Option String
deriving DecidableEq

def maxRent : Nat := 99999999

/-- POST /api/rooms.  `!room_number || !rent` rejects (0 is falsy); rent above
the maximum rejects; a duplicate room number rejects; otherwise the row is
inserted with description defaulting to "" and status defaulting to
'available' — the status comes from the request body. -/
def createRoom (db : DB) (req : CreateRoomReq) : Except ApiError (DB × Nat) :=
  if req.room_number = "" then .error .validationFailed
  else if req.rent = 0 then .error .validationFailed
  else if req.rent > maxRent then .error .invalidRent
  else if db.rooms.any (fun r => r.room_number == req.room_number) then
    .error .duplicateRoomNumber
  else
    let room : Room :=
      { room_id := db.next_room_id
        room_number := req.room_number
        rent := req.rent
        description := orDefault req.description ""
        status := orDefault req.status "available" }
    .ok ({ db with rooms := db.rooms ++ [room], next_room_id := db.next_room_id + 1 },
         db.next_room_id)

/-! ## Billing -/

def water_rate : Nat := 20

def electricity_rate : Nat := 8

/-- Modelled from the spec: the `bills` table's total-amount column is filled
by the database schema, which is not under src/ (the INSERT of POST /api/bills
writes only the usage inputs, the rates and the rent snapshot); per the spec,
total amount = waterUnits×waterRate + electricityUnits×electricityRate +
rentAmount, computed once at Bill creation. -/
def computedTotal (w e rent : Nat) : Nat :=
  w * water_rate + e * electricity_rate + rent

/-- Modelled from the spec: the `bills` table's payment-state column default,
set by the database schema (not under src/); per the spec a new Bill's payment
state is Unpaid. -/
def defaultPaymentState : String := "unpaid"

structure CreateBillReq where
  user_id : Nat
  room_number : String
  meter : Option String
  water_units : Nat
  electricity_units : Nat
  due_date : String
deriving DecidableEq

/-- The bills-row stored by POST /api/bills: inputs, hard-coded rates, the rent
snapshot, and the schema-supplied total and payment state. -/
def mkBill (db : DB) (req : CreateBillReq) (rentAmount : Nat) : Bill :=
  { bill_id := db.next_bill_id
    user_id := req.user_id
    room_number := req.room_number
    water_units := req.water_units
    electricity_units := req.electricity_units
    water_rate := water_rate
    electricity_rate := electricity_rate
    rent_amount := rentAmount
    total_amount := computedTotal req.water_units req.electricity_units rentAmount
    due_date := req.due_date
    meter := req.meter
    slip_path := none
    payment_state := defaultPaymentState
    paid_date := none }

/-- POST /api/bills.  `SELECT rent FROM rooms WHERE room_number = ?`; an
unknown room rejects; otherwise the current rent is snapshotted into the
inserted bill. -/
def createBill (db : DB) (req : CreateBillReq) : Except ApiError (DB × Nat) :=
  match db.rooms.find? (fun r => r.room_number == req.room_number) with
  | none => .error .roomNotFound
  | some room =>
    .ok ({ db with
      bills := db.bills ++ [mkBill db req room.rent]
      next_bill_id := db.next_bill_id + 1 }, db.next_bill_id)

structure UpdateBillReq where
  slip_path : Option String
  payment_state : Option String
  paid_date : Option String
  water_units : Option Nat
  electricity_units : Option Nat
  due_date : Option String
deriving DecidableEq

/-- The merged values of PUT /api/bills/:id: a field absent from the request
keeps the old bill's value. -/
def mergeBill (oldBill : Bill) (req : UpdateBillReq) : Bill :=
  { oldBill with
    slip_path := match req.slip_path with | some s => some s | none => oldBill.slip_path
    payment_state := req.payment_state.getD oldBill.payment_state
    paid_date := match req.paid_date with | some d => some d | none => oldBill.paid_date
    water_units := req.water_units.getD oldBill.water_units
    electricity_units := req.electricity_units.getD oldBill.electricity_units
    due_date := req.due_date.getD oldBill.due_date }

/-- The UPDATE bills statement: the six listed columns are set to the merged
values on every row matching the bill id; the remaining columns (in
particular total_amount) are untouched. -/
def applyBillUpdate (merged : Bill) (b : Bill) : Bill :=
  { b with
    slip_path := merged.slip_path
    payment_state := merged.payment_state
    paid_date := merged.paid_date
    water_units := merged.water_units
    electricity_units := merged.electricity_units
    due_date := merged.due_date }

/-- PUT /api/bills/:id.  Fetch the old bill (404 when absent); merge the
request over it; UPDATE the row; then, whenever the merged payment state is
'paid' (regardless of the previous state), re-select the bill's total amount
and INSERT a payment_history row whose date is the merged paid date or, when
that is falsy, today's date.  `today` stands for `new Date()` at the request,
and the unused `user_id` body field is dropped. -/
def updateBill (db : DB) (id : Nat) (req : UpdateBillReq) (today : String) :
    Except ApiError DB :=
  match db.bills.find? (fun b => b.bill_id == id) with
  | none => .error .billNotFound
  | some oldBill =>
    let merged := mergeBill oldBill req
    let db1 : DB := { db with bills := db.bills.map fun b =>
        if b.bill_id == id then applyBillUpdate merged b else b }
    if merged.payment_state = "paid" then
      match db1.bills.find? (fun b => b.bill_id == id) with
      | none => .error .billNotFound
      | some billRow =>
        let paymentDate : String :=
          match merged.paid_date with
          | some d => if d = "" then today else d
          | none => today
        let entry : PaymentRecord :=
          { payment_id := db1.next_payment_id
            bill_id := id
            amount_paid := billRow.total_amount
            payment_date := paymentDate
            slip_path := merged.slip_path }
        .ok { db1 with
          payment_history := db1.payment_history ++ [entry]
          next_payment_id := db1.next_payment_id + 1 }
    else .ok db1

/-- Modelled from the spec: deleting a Bill cascades to the payment_history
rows referencing it through the schema's foreign key; the database schema is
not under src/ (DELETE /api/bills/:id itself deletes only from `bills`). -/
def cascadeDeleteHistory (db : DB) (id : Nat) : DB :=
  { db with payment_history := db.payment_history.filter fun p => p.bill_id != id }

/-- DELETE /api/bills/:id.  The DELETE runs and a zero affected-row count maps
to 404. -/
def deleteBill (db : DB) (id : Nat) : Except ApiError DB :=
  if db.bills.any (fun b => b.bill_id == id) then
    .ok (cascadeDeleteHistory
      { db with bills := db.bills.filter fun b => b.bill_id != id } id)
  else .error .billNotFound

/-! ## Read-only queries -/

/-- `SELECT ... FROM bills WHERE user_id = ?`. -/
def billsForUser (db : DB) (uid : Nat) : List Bill :=
  db.bills.filter fun b => b.user_id == uid

/-- GET /api/bills.  Admin gets every row; a user gets their own; a missing
user_id is a validation error; an empty result set maps to 404. -/
def getBills (db : DB) (is_admin : Bool) (uid? : Option Nat) :
    Except ApiError (List Bill) :=
  if is_admin then
    if db.bills = [] then .error .billsNotFound else .ok db.bills
  else
    match uid? with
    | none => .error .validationFailed
    | some uid =>
      let rows := billsForUser db uid
      if rows = [] then .error .billsNotFound else .ok rows

/-- The LEFT JOIN of payment_history with bills filtered on the bill owner:
the kept rows are exactly those whose bill id matches a bill of the user. -/
def paymentHistoryForUser (db : DB) (uid : Nat) : List PaymentRecord :=
  db.payment_history.filter fun p =>
    db.bills.any fun b => b.bill_id == p.bill_id && b.user_id == uid

/-- GET /api/payment_history/:userId.  An empty result set maps to 404. -/
def getPaymentHistory (db : DB) (uid : Nat) : Except ApiError (List PaymentRecord) :=
  let rows := paymentHistoryForUser db uid
  if rows = [] then .error .historyNotFound else .ok rows

/-! ## Occupancy consistency -/

/-- Number of users whose room reference is `rn` (tenants reference rooms by
number). -/
def occCount (users : List User) (rn : String) : Nat :=
  users.countP fun u => u.room_number == some rn

/-- The occupancy invariant: user ids are unique and below the auto-increment
counter, room references are real (nonempty) numbers, every room number has at
most one occupant, and every rooms row's status is 'occupied' exactly when its
number has one occupant and 'available' otherwise. -/
structure Consistent (db : DB) : Prop where
  ids_lt : ∀ u ∈ db.users, u.user_id < db.next_user_id
  ids_nodup : (db.users.map User.user_id).Nodup
  refs_nonempty : ∀ u ∈ db.users, u.room_number ≠ some ""
  at_most_one : ∀ rn : String, occCount db.users rn ≤ 1
  occ_iff : ∀ r ∈ db.rooms, (r.status = "occupied" ↔ occCount db.users r.room_number = 1)
  avail_of_ne : ∀ r ∈ db.rooms, occCount db.users r.room_number ≠ 1 → r.status = "available"

/-- The tenant-mutating operations of the claim: POST /api/register,
PUT /api/users/:user_id, DELETE /api/users/:user_id. -/
inductive TenantOp
  | registerOp (req : RegisterReq)
  | updateOp (uid : Nat) (req : UpdateUserReq)
  | deleteOp (uid : Nat)

/-- Run one tenant operation, keeping the store the handler leaves behind.  A
rejected registration or deletion leaves the store unchanged (their first
write is the one that can fail); a tenant update carries whatever state its
handler committed before finishing or failing. -/
def applyTenantOp (db : DB) (op : TenantOp) : DB :=
  match op with
  | .registerOp req =>
    match register db req with
    | .ok (db', _) => db'
    | .error _ => db
  | .updateOp uid req => (updateUser db uid req).1
  | .deleteOp uid =>
    match deleteUser db uid with
    | .ok db' => db'
    | .error _ => db

/-- Whether a response is the handler's generic 500.  For the tenant update
this is exactly the mid-operation failure: every other error is raised before
the first write. -/
def isServerError {α : Type} (e : Except ApiError α) : Bool :=
  match e with
  | .error .serverError => true
  | _ => false

/-- A tenant operation is safe on a store when it does not fail mid-way: for
the tenant update, its response is not the 500 raised after partial room
writes; registrations and deletions never fail mid-way. -/
def opSafeB (db : DB) (op : TenantOp) : Bool :=
  match op with
  | .updateOp uid req => !(isServerError (updateUser db uid req).2)
  | _ => true

/-- A sequence of tenant operations is safe when each operation, run in the
store reached at its turn, does not fail mid-way. -/
def opsSafe (db : DB) : List TenantOp → Bool
  | [] => true
  | op :: ops => opSafeB db op && opsSafe (applyTenantOp db op) ops

/-! ## Concrete fixtures -/

def emptyDB : DB :=
  { rooms := [], users := [], bills := [], payment_history := []
    next_room_id := 1, next_user_id := 1, next_bill_id := 1, next_payment_id := 1 }

def room101 : Room :=
  { room_id := 1, room_number := "101", rent := 2500, description := "", status := "available" }

def room101occ : Room :=
  { room_id := 1, room_number := "101", rent := 2500, description := "", status := "occupied" }

def alice : User :=
  { user_id := 1, username := "alice", password := bcryptHash "secret123"
    full_name := none, phone_number := none, line_id := none
    role := some "user", room_number := some "101" }

def paidBill1 : Bill :=
  { bill_id := 1, user_id := 1, room_number := "101"
    water_units := 10, electricity_units := 20, water_rate := 20, electricity_rate := 8
    rent_amount := 2500, total_amount := 2860, due_date := "2024-05-01"
    meter := none, slip_path := some "slip1", payment_state := "paid"
    paid_date := some "2024-05-10" }

def unpaidBill1 : Bill :=
  { bill_id := 1, user_id := 1, room_number := "101"
    water_units := 10, electricity_units := 20, water_rate := 20, electricity_rate := 8
    rent_amount := 2500, total_amount := 2860, due_date := "2024-05-01"
    meter := none, slip_path := none, payment_state := "unpaid", paid_date := none }

def record1 : PaymentRecord :=
  { payment_id := 1, bill_id := 1, amount_paid := 2860
    payment_date := "2024-05-10", slip_path := some "slip1" }

def c1db : DB :=
  { rooms := [room101occ], users := [alice], bills := [paidBill1]
    payment_history := [record1]
    next_room_id := 2, next_user_id := 2, next_bill_id := 2, next_payment_id := 2 }

def c1req : UpdateBillReq :=
  { slip_path := none, payment_state := some "paid", paid_date := none
    water_units := none, electricity_units := none, due_date := none }

def c2roomReq : CreateRoomReq :=
  { room_number := "101", rent := 2500, description := none, status := some "occupied" }

def c2dbAfter : DB :=
  { rooms := [{ room_id := 1, room_number := "101", rent := 2500
                description := "", status := "occupied" }]
    users := [], bills := [], payment_history := []
    next_room_id := 2, next_user_id := 1, next_bill_id := 1, next_payment_id := 1 }

def sampleRegisterReq : RegisterReq :=
  { username := "bob", password := "secret123", full_name := none
    phone_number := none, line_id := none, role := none, room_number := some "101" }

def sampleDB : DB :=
  { rooms := [room101], users := [], bills := [], payment_history := []
    next_room_id := 2, next_user_id := 1, next_bill_id := 1, next_payment_id := 1 }

def sampleUpdateReq : UpdateUserReq :=
  { username := "bob", password := none, full_name := none, phone_number := none
    line_id := none, role := none, room_number := "101" }

def sampleOps : List TenantOp :=
  [.registerOp sampleRegisterReq, .updateOp 1 sampleUpdateReq, .deleteOp 1]

def c3db : DB :=
  { rooms := [room101occ], users := [alice], bills := [], payment_history := []
    next_room_id := 2, next_user_id := 2, next_bill_id := 1, next_payment_id := 1 }

def c3req : UpdateUserReq :=
  { username := "alice", password := none, full_name := none, phone_number := none
    line_id := none, role := none, room_number := "999" }

def c4db : DB :=
  { rooms := [room101], users := [], bills := [unpaidBill1], payment_history := []
    next_room_id := 2, next_user_id := 1, next_bill_id := 2, next_payment_id := 1 }

def c4req : UpdateBillReq :=
  { slip_path := none, payment_state := none, paid_date := none
    water_units := some 50, electricity_units := none, due_date := none }

def c5db : DB := sampleDB

def c5req : CreateBillReq :=
  { user_id := 1, room_number := "101", meter := none
    water_units := 10, electricity_units := 20, due_date := "2024-05-01" }

def c5dbAfter : DB :=
  { rooms := [room101], users := [], bills := [mkBill c5db c5req 2500]
    payment_history := []
    next_room_id := 2, next_user_id := 1, next_bill_id := 2, next_payment_id := 1 }

def c6db : DB := c1db

def c8req : UpdateBillReq :=
  { slip_path := some "newslip", payment_state := none, paid_date := none
    water_units := none, electricity_units := none, due_date := none }

def c7req : UpdateUserReq :=
  { username := "alice", password := none, full_name := none, phone_number := none
    line_id := none, role := none, room_number := "101" }

def c9dbAfter : DB :=
  { rooms := [room101], users := [], bills := [], payment_history := []
    next_room_id := 2, next_user_id := 2, next_bill_id := 1, next_payment_id := 1 }

def c9req : RegisterReq := sampleRegisterReq

def c6del : DB :=
  { rooms := [room101occ], users := [alice], bills := [], payment_history := []
    next_room_id := 2, next_user_id := 2, next_bill_id := 2, next_payment_id := 2 }

def c8billAfter : Bill := { unpaidBill1 with slip_path := some "newslip" }

def c8dbAfter : DB := { c4db with bills := [c8billAfter] }

/-! # Theorems -/

/-- C1: the payment-history insert of PUT /api/bills/:id is keyed on the
merged payment state alone, never on the previous one: re-submitting state
'paid' on a bill that is already 'paid' (here `c1db`, holding exactly one
PaymentRecord for bill 1) appends a second PaymentRecord for the same bill —
the claimed no-op does not hold of the code. -/
theorem updateBill_paid_resubmission_duplicates_record :
    paidBill1.payment_state = "paid" ∧
    (c1db.payment_history.filter (fun p => p.bill_id == 1)).length = 1 ∧
    (updateBill c1db 1 c1req "2024-06-01").toOption.map
      (fun d => (d.payment_history.filter (fun p => p.bill_id == 1)).length) = some 2 := by
  decide

/-- C2 counterexample: POST /api/rooms stores the status string supplied in
the request body, so on the empty store it creates a room whose status is
'occupied' while no tenant references it — an operation that sets Room.status
independently of occupancy. -/
theorem createRoom_status_from_request :
    (createRoom emptyDB c2roomReq).toOption = some (c2dbAfter, 1) ∧
    c2dbAfter.rooms.map Room.status = ["occupied"] ∧
    occCount c2dbAfter.users "101" = 0 := by
  decide

/-- C3: PUT /api/users/:user_id with a target room number that names no room
("999" in `c3db`) does not fail with RoomNotFound: it reaches the auto-create
branch whose malformed INSERT MySQL always rejects (error 1110), so the
handler returns the generic 500 — after the tenant's old room "101" was
already released to 'available' — with no rooms row created and the user row
unchanged. -/
theorem updateUser_unknown_room_fails_500 :
    c3db.rooms.any (fun r => r.room_number == "999") = false ∧
    (updateUser c3db 1 c3req).2 = .error .serverError ∧
    (updateUser c3db 1 c3req).1.rooms.map (fun r => (r.room_number, r.status)) =
      [("101", "available")] ∧
    (updateUser c3db 1 c3req).1.users = c3db.users := by
  refine ⟨by decide, rfl, by decide, rfl⟩

/-- C4: PUT /api/bills/:id changes the water units from 10 to 50 but leaves
the stored total amount at its old value 2860, although the formula under the
same snapshot rent gives 3660 — the total is left stale, not recomputed. -/
theorem updateBill_leaves_total_stale :
    (updateBill c4db 1 c4req "2024-06-01").toOption.map
      (fun d => d.bills.map (fun b => (b.water_units, b.total_amount))) =
      some [(50, 2860)] ∧
    computedTotal 50 20 2500 = 3660 := by
  decide

/-- C5: POST /api/bills fails with RoomNotFound when the room number names no
room; otherwise the stored bill snapshots the found room's current rent, its
total amount equals waterUnits×waterRate + electricityUnits×electricityRate +
rent, and its payment state is 'unpaid'. -/
theorem createBill_correct (db : DB) (req : CreateBillReq) :
    (db.rooms.find? (fun r => r.room_number == req.room_number) = none →
      createBill db req = .error .roomNotFound) ∧
    (∀ room, db.rooms.find? (fun r => r.room_number == req.room_number) = some room →
      ∀ db' bid, createBill db req = .ok (db', bid) →
        ∀ b, db'.bills.getLast? = some b →
          b.rent_amount = room.rent ∧
          b.total_amount = req.water_units * water_rate +
            req.electricity_units * electricity_rate + room.rent ∧
          b.payment_state = "unpaid" ∧
          b.bill_id = bid) := by
  constructor
  · intro h
    simp [createBill, h]
  · intro room hfind db' bid hok b hlast
    simp only [createBill, hfind, Except.ok.injEq, Prod.mk.injEq] at hok
    obtain ⟨rfl, rfl⟩ := hok
    simp only [List.getLast?_concat, Option.some.injEq] at hlast
    subst hlast
    exact ⟨rfl, rfl, rfl, rfl⟩

/-- C5 witness: on a store holding room "101" with rent 2500, the bill created
for water=10, electricity=20 totals 10×20 + 20×8 + 2500 = 2860 and is
'unpaid'; on the empty store the call fails with RoomNotFound. -/
theorem createBill_correct_witness :
    createBill emptyDB c5req = .error .roomNotFound ∧
    (mkBill c5db c5req 2500).rent_amount = 2500 ∧
    (mkBill c5db c5req 2500).total_amount = 2860 ∧
    (mkBill c5db c5req 2500).payment_state = "unpaid" := by
  have h := (createBill_correct c5db c5req).2 room101 rfl c5dbAfter 1 rfl
    (mkBill c5db c5req 2500) rfl
  exact ⟨(createBill_correct emptyDB c5req).1 rfl, h.1, h.2.1, h.2.2.1⟩

/-- C6: DELETE /api/bills/:id fails with BillNotFound when no bill has the
id; on success neither a bill nor a payment record referencing the id
remains. -/
theorem deleteBill_correct (db : DB) (id : Nat) :
    (db.bills.any (fun b => b.bill_id == id) = false →
      deleteBill db id = .error .billNotFound) ∧
    (∀ db', deleteBill db id = .ok db' →
      (∀ b ∈ db'.bills, b.bill_id ≠ id) ∧
      (∀ p ∈ db'.payment_history, p.bill_id ≠ id)) := by
  constructor
  · intro h
    simp [deleteBill, h]
  · intro db' hok
    unfold deleteBill at hok
    split at hok
    · cases hok
      constructor
      · intro b hb
        have := (List.mem_filter.mp hb).2
        simpa using this
      · intro p hp
        have := (List.mem_filter.mp hp).2
        simpa using this
    · cases hok

/-- C6 witness: deleting bill 1 from `c6db` (which holds one payment record
for bill 1) leaves no payment record for bill 1; deleting from the empty
store fails with BillNotFound. -/
theorem deleteBill_correct_witness :
    deleteBill emptyDB 1 = .error .billNotFound ∧ record1 ∉ c6del.payment_history := by
  have h := (deleteBill_correct c6db 1).2 c6del rfl
  exact ⟨(deleteBill_correct emptyDB 1).1 rfl, fun hmem => h.2 record1 hmem rfl⟩

/-- C10: a bill-listing query (admin or per-user) and a payment-history query
whose underlying result set is empty return a 404 error, not an empty
list. -/
theorem empty_results_not_found (db : DB) (uid : Nat) :
    (billsForUser db uid = [] → getBills db false (some uid) = .error .billsNotFound) ∧
    (db.bills = [] → getBills db true none = .error .billsNotFound) ∧
    (paymentHistoryForUser db uid = [] →
      getPaymentHistory db uid = .error .historyNotFound) := by
  refine ⟨fun h => ?_, fun h => ?_, fun h => ?_⟩
  · simp [getBills, h]
  · simp [getBills, h]
  · simp [getPaymentHistory, h]

/-- After `UPDATE rooms SET status = ? WHERE room_number = ?`, every rooms row
carrying that number has the written status. -/
theorem setRoomStatus_status (db : DB) (rn st : String) :
    ∀ r ∈ (setRoomStatus db rn st).rooms, r.room_number = rn → r.status = st := by
  intro r hr hnum
  simp only [setRoomStatus, List.mem_map] at hr
  obtain ⟨r0, hr0, rfl⟩ := hr
  by_cases hcase : r0.room_number = rn
  · simp [hcase]
  · simp only [beq_iff_eq, hcase, if_false, ite_false] at hnum

/-- C7: a tenant already bound to the requested room number — so a rooms row
with that number exists and the tenant is its only occupant — passes the
occupied-room check of PUT /api/users/:user_id, because that check excludes
the tenant's own user id; with an otherwise valid request (nonempty fields,
no username collision with another row, which the unique key guarantees in
any reachable store) the self-move succeeds instead of failing with
RoomOccupied. -/
theorem updateUser_self_move_succeeds (db : DB) (uid : Nat) (u : User) (req : UpdateUserReq)
    (hfind : db.users.find? (fun x => x.user_id == uid) = some u)
    (hroom : u.room_number = some req.room_number)
    (hex : db.rooms.any (fun r => r.room_number == req.room_number) = true)
    (huser : req.username ≠ "")
    (hrn : req.room_number ≠ "")
    (honly : ∀ v ∈ db.users, v.room_number = some req.room_number → v.user_id = uid)
    (huniq : ∀ v ∈ db.users, v.username = req.username → v.user_id = uid) :
    (updateUser db uid req).2 = .ok () := by
  have hocc : db.users.any
      (fun v => v.room_number == some req.room_number && v.user_id != uid) = false := by
    rw [List.any_eq_false]
    intro v hv
    simp only [Bool.and_eq_true, beq_iff_eq, bne_iff_ne, not_and]
    intro hvroom
    simp [honly v hv hvroom]
  have hdup : db.users.any
      (fun v => v.username == req.username && v.user_id != uid) = false := by
    rw [List.any_eq_false]
    intro v hv
    simp only [Bool.and_eq_true, beq_iff_eq, bne_iff_ne, not_and]
    intro hvname
    simp [huniq v hv hvname]
  have hrel : releaseOldRoom db req.room_number u = db := by
    simp [releaseOldRoom, hroom]
  have hsetusers : (setRoomStatus db req.room_number "occupied").users = db.users := rfl
  unfold updateUser performMove claimAndRewrite rewriteUserRow
  rw [if_neg huser, if_neg hrn, hfind]
  simp [hocc, hrel, hex, hdup, hsetusers]

/-- C7 witness: alice (user 1, bound to the existing room "101") updating
herself to room "101" succeeds. -/
theorem updateUser_self_move_succeeds_witness :
    (updateUser c3db 1 c7req).2 = .ok () :=
  updateUser_self_move_succeeds c3db 1 alice c7req rfl rfl rfl (by decide) (by decide)
    (by decide) (by decide)

/-- Updating every bills row matching an id rewrites the first match in
place: the SELECT after the UPDATE returns the updated first match. -/
theorem find?_update_bills (l : List Bill) (id : Nat) (f : Bill → Bill) (oldBill : Bill)
    (hf : ∀ b, (f b).bill_id = b.bill_id)
    (hfind : l.find? (fun b => b.bill_id == id) = some oldBill) :
    (l.map fun b => if b.bill_id == id then f b else b).find?
      (fun b => b.bill_id == id) = some (f oldBill) := by
  induction l with
  | nil => cases hfind
  | cons x xs ih =>
    by_cases h : (x.bill_id == id) = true
    · rw [List.find?_cons_of_pos xs (show (fun b => b.bill_id == id) x = true from h)]
        at hfind
      obtain rfl := Option.some.inj hfind
      have hpf : (fun b => b.bill_id == id) (f x) = true := by
        simp only [hf]
        exact h
      simp only [List.map_cons, if_pos h]
      exact List.find?_cons_of_pos _ hpf
    · have h' : ¬ (fun b => b.bill_id == id) x = true := h
      rw [List.find?_cons_of_neg xs h'] at hfind
      simp only [List.map_cons, if_neg h]
      have hstep : List.find? (fun b => b.bill_id == id)
          (x :: List.map (fun b => if b.bill_id == id then f b else b) xs) =
          List.find? (fun b => b.bill_id == id)
            (List.map (fun b => if b.bill_id == id then f b else b) xs) :=
        List.find?_cons_of_neg _ h'
      rw [hstep]
      exact ih hfind

/-- C8: PUT /api/bills/:id fails with BillNotFound when no bill has the id;
on success, every one of the six updatable fields omitted from the request
keeps its previous value on the stored bill. -/
theorem updateBill_merge_patch (db : DB) (id : Nat) (req : UpdateBillReq) (today : String) :
    (db.bills.find? (fun b => b.bill_id == id) = none →
      updateBill db id req today = .error .billNotFound) ∧
    (∀ oldBill, db.bills.find? (fun b => b.bill_id == id) = some oldBill →
      ∀ db', updateBill db id req today = .ok db' →
        ∀ b', db'.bills.find? (fun b => b.bill_id == id) = some b' →
          (req.slip_path = none → b'.slip_path = oldBill.slip_path) ∧
          (req.payment_state = none → b'.payment_state = oldBill.payment_state) ∧
          (req.paid_date = none → b'.paid_date = oldBill.paid_date) ∧
          (req.water_units = none → b'.water_units = oldBill.water_units) ∧
          (req.electricity_units = none →
            b'.electricity_units = oldBill.electricity_units) ∧
          (req.due_date = none → b'.due_date = oldBill.due_date)) := by
  constructor
  · intro h
    simp [updateBill, h]
  · intro oldBill hfind db' hok b' hb'
    have hfind' := find?_update_bills db.bills id
      (applyBillUpdate (mergeBill oldBill req)) oldBill (fun b => rfl) hfind
    simp only [updateBill, hfind, hfind'] at hok
    split at hok <;>
      (injection hok with h
       subst h
       simp only [hfind'] at hb'
       obtain rfl := Option.some.inj hb'
       refine ⟨?_, ?_, ?_, ?_, ?_, ?_⟩ <;>
         (intro hnone
          simp [applyBillUpdate, mergeBill, hnone]))

/-- C8 witness: updating bill 1 of `c4db` with only a slip reference keeps
the omitted payment state, water units and due date; on the empty store the
call fails with BillNotFound. -/
theorem updateBill_merge_patch_witness :
    updateBill emptyDB 1 c8req "2024-06-01" = .error .billNotFound ∧
    c8billAfter.payment_state = "unpaid" ∧
    c8billAfter.water_units = 10 ∧
    c8billAfter.due_date = "2024-05-01" := by
  have h := (updateBill_merge_patch c4db 1 c8req "2024-06-01").2 unpaidBill1 rfl
    c8dbAfter rfl c8billAfter rfl
  exact ⟨(updateBill_merge_patch emptyDB 1 c8req "2024-06-01").1 rfl,
    h.2.1 rfl, h.2.2.2.1 rfl, h.2.2.2.2.2 rfl⟩

/-- C9: DELETE /api/users/:user_id fails with TenantNotFound when no user has
the id; deleting a tenant bound to a room sets every rooms row with that
number to 'available', after which a registration targeting that room number
(with a fresh valid username and password) succeeds. -/
theorem deleteUser_releases_room (db : DB) (uid : Nat) :
    (db.users.find? (fun v => v.user_id == uid) = none →
      deleteUser db uid = .error .tenantNotFound) ∧
    (∀ u rn, db.users.find? (fun v => v.user_id == uid) = some u →
      u.room_number = some rn → rn ≠ "" →
      ∀ db', deleteUser db uid = .ok db' →
        (∀ r ∈ db'.rooms, r.room_number = rn → r.status = "available") ∧
        (∀ req : RegisterReq, orNull req.room_number = some rn →
          req.username ≠ "" → 6 ≤ req.password.length →
          db'.rooms.any (fun r => r.room_number == rn) = true →
          db'.users.any (fun v => v.username == req.username) = false →
          isOkE (register db' req) = true)) := by
  constructor
  · intro h
    simp [deleteUser, h]
  · intro u rn hfind hroom hrn db' hok
    simp only [deleteUser, hfind, hroom] at hok
    rw [if_pos hrn] at hok
    injection hok with h
    subst h
    have hrooms := setRoomStatus_status
      { db with users := db.users.filter fun v => v.user_id != uid } rn "available"
    refine ⟨hrooms, fun req hreqrn huser hpw hex hdup => ?_⟩
    unfold register
    rw [if_neg huser, if_neg (by omega : ¬ req.password.length < 6), hreqrn]
    have hocc : (setRoomStatus
        { db with users := db.users.filter fun v => v.user_id != uid } rn
        "available").rooms.any
          (fun r => r.room_number == rn && r.status == "occupied") = false := by
      rw [List.any_eq_false]
      intro r hr
      simp only [Bool.and_eq_true, beq_iff_eq, not_and]
      intro hnum
      simp [hrooms r hr hnum]
    simp only [hocc, hex, hdup]
    rfl

/-- C9 witness: deleting alice (bound to room "101") from `c3db` yields
`c9dbAfter`, where room "101" is 'available' and bob's registration into
"101" succeeds; deleting from the empty store fails with TenantNotFound. -/
theorem deleteUser_releases_room_witness :
    deleteUser emptyDB 1 = .error .tenantNotFound ∧
    room101.status = "available" ∧
    isOkE (register c9dbAfter c9req) = true := by
  have h := (deleteUser_releases_room c3db 1).2 alice "101" rfl rfl (by decide)
    c9dbAfter rfl
  refine ⟨(deleteUser_releases_room emptyDB 1).1 rfl, h.1 room101 (by decide) rfl, ?_⟩
  exact h.2 c9req rfl (by decide) (by decide) rfl rfl

/-! ### Counting helpers for the occupancy invariant -/

/-- A successful `orNull` result is the original value and is nonempty. -/
theorem orNull_eq_some {s : Option String} {v : String} (h : orNull s = some v) :
    s = some v ∧ v ≠ "" := by
  unfold orNull at h
  split at h
  · cases h
  · next v' hne =>
    obtain rfl := Option.some.inj h
    refine ⟨rfl, ?_⟩
    intro hv
    subst hv
    exact hne rfl
  · cases h

/-- A conditional rewrite of the row with a given user id changes nothing when
no row has that id. -/
theorem map_update_eq_self (l : List User) (uid : Nat) (f : User → User)
    (h : ∀ u ∈ l, ¬ u.user_id = uid) :
    l.map (fun u => if u.user_id == uid then f u else u) = l := by
  induction l with
  | nil => rfl
  | cons x xs ih =>
    have hx : ¬ (x.user_id == uid) = true := by
      simp only [beq_iff_eq]
      exact h x (List.mem_cons_self x xs)
    simp only [List.map_cons, if_neg hx]
    rw [ih fun u hu => h u (List.mem_cons_of_mem x hu)]

/-- Rewriting the (unique) row with a given user id moves any count by the
difference between the old and the new row. -/
theorem countP_map_update (l : List User) (uid : Nat) (f : User → User) (u0 : User)
    (p : User → Bool)
    (hnd : (l.map User.user_id).Nodup)
    (hfind : l.find? (fun u => u.user_id == uid) = some u0) :
    (l.map (fun u => if u.user_id == uid then f u else u)).countP p +
      (if p u0 then 1 else 0) =
    l.countP p + (if p (f u0) then 1 else 0) := by
  induction l with
  | nil => cases hfind
  | cons x xs ih =>
    simp only [List.map_cons, List.nodup_cons] at hnd
    obtain ⟨hx_nin, hnd'⟩ := hnd
    by_cases h : (x.user_id == uid) = true
    · rw [List.find?_cons_of_pos xs (show (fun u => u.user_id == uid) x = true from h)]
        at hfind
      obtain rfl := Option.some.inj hfind
      have hxs : ∀ u ∈ xs, ¬ u.user_id = uid := by
        intro u hu hueq
        apply hx_nin
        rw [List.mem_map]
        exact ⟨u, hu, by rw [hueq]; exact (beq_iff_eq.mp h).symm⟩
      simp only [List.map_cons, if_pos h, map_update_eq_self xs uid f hxs,
        List.countP_cons]
      omega
    · have h' : ¬ (fun u => u.user_id == uid) x = true := h
      rw [List.find?_cons_of_neg xs h'] at hfind
      have := ih hnd' hfind
      simp only [List.map_cons, if_neg h, List.countP_cons]
      omega

/-- Deleting the (unique) row with a given user id removes exactly that row's
contribution from any count. -/
theorem countP_filter_out (l : List User) (uid : Nat) (u0 : User) (p : User → Bool)
    (hnd : (l.map User.user_id).Nodup)
    (hfind : l.find? (fun u => u.user_id == uid) = some u0) :
    (l.filter (fun u => u.user_id != uid)).countP p + (if p u0 then 1 else 0) =
      l.countP p := by
  induction l with
  | nil => cases hfind
  | cons x xs ih =>
    simp only [List.map_cons, List.nodup_cons] at hnd
    obtain ⟨hx_nin, hnd'⟩ := hnd
    by_cases h : (x.user_id == uid) = true
    · rw [List.find?_cons_of_pos xs (show (fun u => u.user_id == uid) x = true from h)]
        at hfind
      obtain rfl := Option.some.inj hfind
      have hxs : xs.filter (fun u => u.user_id != uid) = xs := by
        rw [List.filter_eq_self]
        intro u hu
        simp only [bne_iff_ne]
        intro hueq
        apply hx_nin
        rw [List.mem_map]
        exact ⟨u, hu, by rw [hueq]; exact (beq_iff_eq.mp h).symm⟩
      have hxf : (x.user_id != uid) = false := by
        simp only [bne_eq_false_iff_eq, beq_iff_eq]
        exact beq_iff_eq.mp h
      rw [List.filter_cons, hxf]
      simp only [Bool.false_eq_true, if_false, ite_false, hxs, List.countP_cons]
    · have hxf : (x.user_id != uid) = true := by
        simp only [bne_iff_ne]
        intro hx
        exact h (beq_iff_eq.mpr hx)
      have h' : ¬ (fun u => u.user_id == uid) x = true := h
      rw [List.find?_cons_of_neg xs h'] at hfind
      have := ih hnd' hfind
      rw [List.filter_cons, hxf]
      simp only [if_true, ite_true, List.countP_cons]
      omega

/-- When every row satisfying `p` carries the given user id, the count of `p`
collapses to the contribution of the row found for that id. -/
theorem countP_unique (l : List User) (uid : Nat) (u0 : User) (p : User → Bool)
    (hnd : (l.map User.user_id).Nodup)
    (hfind : l.find? (fun u => u.user_id == uid) = some u0)
    (honly : ∀ u ∈ l, p u = true → u.user_id = uid) :
    l.countP p = if p u0 then 1 else 0 := by
  induction l with
  | nil => cases hfind
  | cons x xs ih =>
    simp only [List.map_cons, List.nodup_cons] at hnd
    obtain ⟨hx_nin, hnd'⟩ := hnd
    by_cases h : (x.user_id == uid) = true
    · rw [List.find?_cons_of_pos xs (show (fun u => u.user_id == uid) x = true from h)]
        at hfind
      obtain rfl := Option.some.inj hfind
      have hxs0 : xs.countP p = 0 := by
        rw [List.countP_eq_zero]
        intro u hu hpu
        apply hx_nin
        rw [List.mem_map]
        refine ⟨u, hu, ?_⟩
        rw [honly u (List.mem_cons_of_mem x hu) hpu]
        exact (beq_iff_eq.mp h).symm
      rw [List.countP_cons, hxs0]
      omega
    · have h' : ¬ (fun u => u.user_id == uid) x = true := h
      rw [List.find?_cons_of_neg xs h'] at hfind
      have hpx : p x = false := by
        by_contra hpx
        exact h (beq_iff_eq.mpr
          (honly x (List.mem_cons_self x xs) (eq_true_of_ne_false hpx)))
      rw [List.countP_cons, hpx,
        ih hnd' hfind fun u hu hpu => honly u (List.mem_cons_of_mem x hu) hpu]
      simp

/-- Membership after `UPDATE rooms SET status = ? WHERE room_number = ?`:
every row of the result comes from a source row with the same number, either
matched (status rewritten) or untouched. -/
theorem setRoomStatus_mem_cases (db : DB) (rn st : String) (r' : Room) :
    r' ∈ (setRoomStatus db rn st).rooms →
    ∃ r ∈ db.rooms, r'.room_number = r.room_number ∧
      ((r.room_number = rn ∧ r'.status = st) ∨ (¬ r.room_number = rn ∧ r' = r)) := by
  intro h
  simp only [setRoomStatus, List.mem_map] at h
  obtain ⟨r, hr, rfl⟩ := h
  refine ⟨r, hr, ?_, ?_⟩
  · by_cases hc : r.room_number = rn <;> simp [hc]
  · by_cases hc : r.room_number = rn
    · exact Or.inl ⟨hc, by simp [hc]⟩
    · exact Or.inr ⟨hc, by simp [hc]⟩

/-- POST /api/register preserves the occupancy invariant. -/
theorem register_preserves (db : DB) (req : RegisterReq) (db' : DB) (uid : Nat)
    (h : Consistent db) (hok : register db req = .ok (db', uid)) :
    Consistent db' := by
  unfold register at hok
  split at hok
  · cases hok
  · split at hok
    · cases hok
    · split at hok
      case _ rn horn =>
        split at hok
        · cases hok
        · split at hok
          · cases hok
          · split at hok
            · cases hok
            · rename_i hocc hex hdup
              injection hok with hpair
              injection hpair with hdb' huid
              subst hdb'
              obtain ⟨-, hrn_ne⟩ := orNull_eq_some horn
              have hnotocc : ∀ r ∈ db.rooms, r.room_number = rn →
                  ¬ r.status = "occupied" := by
                intro r hr hnum hst
                apply hocc
                rw [List.any_eq_true]
                exact ⟨r, hr, by simp [hnum, hst]⟩
              have hexany : (db.rooms.any fun r => r.room_number == rn) = true := by
                rcases Bool.eq_false_or_eq_true
                    (db.rooms.any fun r => r.room_number == rn) with ht | hf
                · exact ht
                · exact absurd (by rw [hf]; rfl) hex
              obtain ⟨r0, hr0, hr0n⟩ : ∃ r ∈ db.rooms, r.room_number = rn := by
                rw [List.any_eq_true] at hexany
                obtain ⟨r, hr, hp⟩ := hexany
                exact ⟨r, hr, beq_iff_eq.mp hp⟩
              have hnot1 : occCount db.users rn ≠ 1 := by
                intro h1
                exact hnotocc r0 hr0 hr0n
                  ((h.occ_iff r0 hr0).mpr (by rw [hr0n]; exact h1))
              have hzero : occCount db.users rn = 0 := by
                have := h.at_most_one rn
                omega
              have hcnt : ∀ rn',
                  occCount (db.users ++ [mkUser db req (some rn)]) rn' =
                    occCount db.users rn' + (if rn = rn' then 1 else 0) := by
                intro rn'
                unfold occCount
                rw [List.countP_append]
                congr 1
                by_cases hrr : rn = rn' <;>
                  simp [mkUser, hrr, List.countP_cons]
              constructor
              · intro u hu
                have hu' : u ∈ db.users ++ [mkUser db req (some rn)] := hu
                show u.user_id < db.next_user_id + 1
                rcases List.mem_append.mp hu' with h1 | h1
                · exact Nat.lt_succ_of_lt (h.ids_lt u h1)
                · simp only [List.mem_singleton] at h1
                  subst h1
                  exact Nat.lt_succ_self _
              · show ((db.users ++ [mkUser db req (some rn)]).map User.user_id).Nodup
                rw [List.map_append, List.nodup_append]
                refine ⟨h.ids_nodup, List.nodup_singleton _, ?_⟩
                intro a ha hb
                simp only [List.map_cons, List.map_nil, List.mem_singleton] at hb
                obtain ⟨u, hu, rfl⟩ := List.mem_map.mp ha
                have := h.ids_lt u hu
                have hb' : u.user_id = db.next_user_id := hb
                omega
              · intro u hu
                have hu' : u ∈ db.users ++ [mkUser db req (some rn)] := hu
                rcases List.mem_append.mp hu' with h1 | h1
                · exact h.refs_nonempty u h1
                · simp only [List.mem_singleton] at h1
                  subst h1
                  exact fun hc => hrn_ne (Option.some.inj hc)
              · intro rn'
                show occCount (db.users ++ [mkUser db req (some rn)]) rn' ≤ 1
                rw [hcnt rn']
                by_cases hrr : rn = rn'
                · subst hrr
                  rw [hzero]
                  simp
                · have := h.at_most_one rn'
                  simp only [hrr, if_false, ite_false]
                  omega
              · intro r' hr'
                obtain ⟨r, hr, hnum, hcases⟩ :=
                  setRoomStatus_mem_cases _ rn "occupied" r' hr'
                have hrdb : r ∈ db.rooms := hr
                show r'.status = "occupied" ↔
                  occCount (db.users ++ [mkUser db req (some rn)]) r'.room_number = 1
                rw [hcnt r'.room_number, hnum]
                rcases hcases with ⟨hrn_eq, hst⟩ | ⟨hrn_ne', hr'eq⟩
                · rw [hst, hrn_eq, hzero]
                  simp
                · rw [if_neg fun hh => hrn_ne' hh.symm, Nat.add_zero, hr'eq]
                  exact h.occ_iff r hrdb
              · intro r' hr' hne
                obtain ⟨r, hr, hnum, hcases⟩ :=
                  setRoomStatus_mem_cases _ rn "occupied" r' hr'
                have hrdb : r ∈ db.rooms := hr
                have hne' : occCount (db.users ++ [mkUser db req (some rn)])
                    r'.room_number ≠ 1 := hne
                rw [hcnt r'.room_number, hnum] at hne'
                rcases hcases with ⟨hrn_eq, hst⟩ | ⟨hrn_ne', hr'eq⟩
                · exfalso
                  apply hne'
                  rw [hrn_eq, hzero]
                  simp
                · rw [hr'eq]
                  apply h.avail_of_ne r hrdb
                  intro h1
                  apply hne'
                  rw [if_neg fun hh => hrn_ne' hh.symm, Nat.add_zero]
                  exact h1
      case _ horn =>
        split at hok
        · cases hok
        · injection hok with hpair
          injection hpair with hdb' huid
          subst hdb'
          have hcnt0 : ∀ rn',
              occCount (db.users ++ [mkUser db req none]) rn' =
                occCount db.users rn' := by
            intro rn'
            unfold occCount
            rw [List.countP_append]
            simp [mkUser, List.countP_cons]
          constructor
          · intro u hu
            have hu' : u ∈ db.users ++ [mkUser db req none] := hu
            show u.user_id < db.next_user_id + 1
            rcases List.mem_append.mp hu' with h1 | h1
            · exact Nat.lt_succ_of_lt (h.ids_lt u h1)
            · simp only [List.mem_singleton] at h1
              subst h1
              exact Nat.lt_succ_self _
          · show ((db.users ++ [mkUser db req none]).map User.user_id).Nodup
            rw [List.map_append, List.nodup_append]
            refine ⟨h.ids_nodup, List.nodup_singleton _, ?_⟩
            intro a ha hb
            simp only [List.map_cons, List.map_nil, List.mem_singleton] at hb
            obtain ⟨u, hu, rfl⟩ := List.mem_map.mp ha
            have := h.ids_lt u hu
            have hb' : u.user_id = db.next_user_id := hb
            omega
          · intro u hu
            have hu' : u ∈ db.users ++ [mkUser db req none] := hu
            rcases List.mem_append.mp hu' with h1 | h1
            · exact h.refs_nonempty u h1
            · simp only [List.mem_singleton] at h1
              subst h1
              exact fun hc => Option.noConfusion hc
          · intro rn'
            show occCount (db.users ++ [mkUser db req none]) rn' ≤ 1
            rw [hcnt0 rn']
            exact h.at_most_one rn'
          · intro r' hr'
            have hr'' : r' ∈ db.rooms := hr'
            show r'.status = "occupied" ↔
              occCount (db.users ++ [mkUser db req none]) r'.room_number = 1
            rw [hcnt0 r'.room_number]
            exact h.occ_iff r' hr''
          · intro r' hr' hne
            have hr'' : r' ∈ db.rooms := hr'
            have hne' : occCount (db.users ++ [mkUser db req none])
                r'.room_number ≠ 1 := hne
            rw [hcnt0 r'.room_number] at hne'
            exact h.avail_of_ne r' hr'' hne'

/-- When the release step is skipped (no old room, or a self-move), the
untouched rooms list satisfies the released-rooms shape. -/
theorem releasedRooms_self (db : DB) (u0 : User) (target : String)
    (h : u0.room_number = none ∨ u0.room_number = some target) :
    ReleasedRooms db u0 target db.rooms := by
  intro r1 hr1 hne
  constructor
  · intro hu0
    rcases h with h0 | h0 <;> rw [h0] at hu0
    · cases hu0
    · exact absurd (Option.some.inj hu0).symm hne
  · intro _
    exact hr1

/-- Releasing the old room `o` (differing from the target) gives the
released-rooms shape. -/
theorem releasedRooms_release (db : DB) (u0 : User) (target o : String)
    (_hne : o ≠ target) (ho : u0.room_number = some o) :
    ReleasedRooms db u0 target (setRoomStatus db o "available").rooms := by
  intro r1 hr1 hne1
  obtain ⟨r0, hr0, hnum, hcases⟩ := setRoomStatus_mem_cases db o "available" r1 hr1
  constructor
  · intro hu0
    rw [ho] at hu0
    have hro : r1.room_number = o := (Option.some.inj hu0).symm
    rcases hcases with ⟨-, hst⟩ | ⟨hnmatch, -⟩
    · exact hst
    · exact absurd (hnum ▸ hro : r0.room_number = o).symm fun he => hnmatch he.symm
  · intro hu0
    rcases hcases with ⟨hmatch, -⟩ | ⟨-, hr1eq⟩
    · exfalso
      apply hu0
      rw [ho, hnum, hmatch]
    · rw [hr1eq]
      exact hr0

/-- Claiming the target by `UPDATE rooms SET status = 'occupied'` turns a
released-rooms shape into the moved-rooms shape. -/
theorem movedRooms_claim_map (db dbR : DB) (u0 : User) (target : String)
    (hrel : ReleasedRooms db u0 target dbR.rooms) :
    MovedRooms db u0 target (setRoomStatus dbR target "occupied").rooms := by
  intro r' hr'
  obtain ⟨r1, hr1, hnum, hcases⟩ := setRoomStatus_mem_cases dbR target "occupied" r' hr'
  rcases hcases with ⟨hmatch, hst⟩ | ⟨hnmatch, hr'eq⟩
  · refine ⟨fun _ => hst, ?_, ?_⟩
    · intro habs _
      exact absurd (hnum ▸ hmatch) habs
    · intro habs _
      exact absurd (hnum ▸ hmatch) habs
  · have hne : r'.room_number ≠ target → r1.room_number ≠ target := by
      intro _ hcontra
      exact hnmatch hcontra
    refine ⟨?_, ?_, ?_⟩
    · intro heq
      exact absurd (hnum ▸ heq) hnmatch
    · intro hne1 hu0
      rw [hr'eq]
      exact ((hrel r1 hr1 (hne hne1)).1 (by rw [hnum] at hu0; exact hu0))
    · intro hne1 hu0
      rw [hr'eq]
      exact ((hrel r1 hr1 (hne hne1)).2 (by rw [hnum] at hu0; exact hu0))

/-- The heart of the tenant-move invariant: if the user row rewrite targets
the (unique) row found for `uid`, no other row references the target room,
and the rooms list has the moved-rooms shape, the store is consistent
again. -/
theorem consistent_after_user_move (db db' : DB) (uid : Nat) (req : UpdateUserReq)
    (u0 : User) (h : Consistent db)
    (hfind : db.users.find? (fun v => v.user_id == uid) = some u0)
    (honly : ∀ v ∈ db.users, v.room_number = some req.room_number → v.user_id = uid)
    (hrn : req.room_number ≠ "")
    (husers : db'.users = db.users.map fun u =>
      if u.user_id == uid then applyUserFields req u else u)
    (hnext : db'.next_user_id = db.next_user_id)
    (hrooms : MovedRooms db u0 req.room_number db'.rooms) :
    Consistent db' := by
  have hu0mem : u0 ∈ db.users := List.mem_of_find?_eq_some hfind
  have hcnt : ∀ p : User → Bool,
      db'.users.countP p + (if p u0 then 1 else 0) =
        db.users.countP p + (if p (applyUserFields req u0) then 1 else 0) := by
    intro p
    rw [husers]
    exact countP_map_update db.users uid (applyUserFields req) u0 p h.ids_nodup hfind
  have hold_t : occCount db.users req.room_number =
      if (u0.room_number == some req.room_number) then 1 else 0 := by
    apply countP_unique db.users uid u0 _ h.ids_nodup hfind
    intro u hu hpu
    exact honly u hu (beq_iff_eq.mp hpu)
  have hK1 : occCount db'.users req.room_number = 1 := by
    have hthis := hcnt fun u => u.room_number == some req.room_number
    have happ : ((applyUserFields req u0).room_number ==
        some req.room_number) = true := by
      simp [applyUserFields]
    rw [happ] at hthis
    simp only [if_true, ite_true] at hthis
    unfold occCount at hold_t ⊢
    omega
  have hK2 : ∀ rn', rn' ≠ req.room_number →
      occCount db'.users rn' + (if (u0.room_number == some rn') then 1 else 0) =
        occCount db.users rn' := by
    intro rn' hne
    have hthis := hcnt fun u => u.room_number == some rn'
    have happ : ((applyUserFields req u0).room_number == some rn') = false := by
      rw [beq_eq_false_iff_ne]
      exact fun hh => hne (Option.some.inj hh).symm
    rw [happ] at hthis
    simp only [Bool.false_eq_true, if_false, ite_false, Nat.add_zero] at hthis
    unfold occCount
    omega
  constructor
  · intro u hu
    rw [husers] at hu
    obtain ⟨u1, hu1, rfl⟩ := List.mem_map.mp hu
    rw [hnext]
    by_cases hc : (u1.user_id == uid) = true
    · simp only [if_pos hc]
      exact h.ids_lt u1 hu1
    · simp only [if_neg hc]
      exact h.ids_lt u1 hu1
  · have hmapeq : db'.users.map User.user_id = db.users.map User.user_id := by
      rw [husers, List.map_map]
      apply List.map_congr_left
      intro u hu
      by_cases hc : (u.user_id == uid) = true <;>
        simp [Function.comp, hc, applyUserFields]
    rw [hmapeq]
    exact h.ids_nodup
  · intro u hu
    rw [husers] at hu
    obtain ⟨u1, hu1, rfl⟩ := List.mem_map.mp hu
    by_cases hc : (u1.user_id == uid) = true
    · simp only [if_pos hc]
      exact fun hcontra => hrn (Option.some.inj hcontra)
    · simp only [if_neg hc]
      exact h.refs_nonempty u1 hu1
  · intro rn'
    by_cases hne : rn' = req.room_number
    · rw [hne, hK1]
    · have h1 := hK2 rn' hne
      have h2 := h.at_most_one rn'
      omega
  · intro r' hr'
    obtain ⟨hc1, hc2, hc3⟩ := hrooms r' hr'
    by_cases hcase : r'.room_number = req.room_number
    · rw [hcase, hK1, hc1 hcase]
      simp
    · by_cases hu0r : u0.room_number = some r'.room_number
      · have hge1 : 0 < occCount db.users r'.room_number := by
          apply List.countP_pos_iff.mpr
          exact ⟨u0, hu0mem, by simp [hu0r]⟩
        have hle := h.at_most_one r'.room_number
        have hnew := hK2 r'.room_number hcase
        have hite : (u0.room_number == some r'.room_number) = true := by
          simp [hu0r]
        rw [hite] at hnew
        simp only [if_true, ite_true] at hnew
        rw [hc2 hcase hu0r]
        constructor
        · intro habs
          exact absurd habs (by decide)
        · intro h1
          exfalso
          omega
      · have hnew := hK2 r'.room_number hcase
        have hite : (u0.room_number == some r'.room_number) = false := by
          rw [beq_eq_false_iff_ne]
          exact hu0r
        rw [hite] at hnew
        simp only [Bool.false_eq_true, if_false, ite_false, Nat.add_zero] at hnew
        rw [hnew]
        exact h.occ_iff r' (hc3 hcase hu0r)
  · intro r' hr' hne1
    obtain ⟨hc1, hc2, hc3⟩ := hrooms r' hr'
    by_cases hcase : r'.room_number = req.room_number
    · exfalso
      apply hne1
      rw [hcase]
      exact hK1
    · by_cases hu0r : u0.room_number = some r'.room_number
      · exact hc2 hcase hu0r
      · have hnew := hK2 r'.room_number hcase
        have hite : (u0.room_number == some r'.room_number) = false := by
          rw [beq_eq_false_iff_ne]
          exact hu0r
        rw [hite] at hnew
        simp only [Bool.false_eq_true, if_false, ite_false, Nat.add_zero] at hnew
        apply h.avail_of_ne r' (hc3 hcase hu0r)
        rw [← hnew]
        exact hne1

/-- Releasing a room touches only the rooms table. -/
theorem releaseOldRoom_users (db : DB) (target : String) (u0 : User) :
    (releaseOldRoom db target u0).users = db.users := by
  unfold releaseOldRoom
  split
  · split <;> rfl
  · rfl

/-- Releasing a room keeps the user auto-increment counter. -/
theorem releaseOldRoom_next_user_id (db : DB) (target : String) (u0 : User) :
    (releaseOldRoom db target u0).next_user_id = db.next_user_id := by
  unfold releaseOldRoom
  split
  · split <;> rfl
  · rfl

/-- PUT /api/users/:user_id preserves the occupancy invariant whenever it
completes successfully. -/
theorem updateUser_preserves (db db' : DB) (uid : Nat) (req : UpdateUserReq)
    (h : Consistent db) (hok : updateUser db uid req = (db', Except.ok ())) :
    Consistent db' := by
  unfold updateUser at hok
  split at hok
  · injection hok with h1 h2
    cases h2
  · case _ huser =>
    split at hok
    · injection hok with h1 h2
      cases h2
    · case _ hrnv =>
      split at hok
      · injection hok with h1 h2
        cases h2
      · case _ u0 hfind =>
        split at hok
        · injection hok with h1 h2
          cases h2
        · case _ hocc =>
          unfold performMove claimAndRewrite rewriteUserRow at hok
          split at hok
          · case _ hexists =>
            split at hok
            · injection hok with h1 h2
              cases h2
            · case _ hdup =>
              injection hok with h1 h2
              subst h1
              have honly : ∀ v ∈ db.users, v.room_number = some req.room_number →
                  v.user_id = uid := by
                intro v hv hvroom
                by_contra hne
                apply hocc
                rw [List.any_eq_true]
                exact ⟨v, hv, by simp [hvroom, hne]⟩
              have hrel : ReleasedRooms db u0 req.room_number
                  (releaseOldRoom db req.room_number u0).rooms := by
                unfold releaseOldRoom
                split
                · case _ o ho =>
                  split
                  · case _ hcond => exact releasedRooms_release db u0 _ o hcond.2 ho
                  · case _ hcond =>
                    have hnem := h.refs_nonempty u0 (List.mem_of_find?_eq_some hfind)
                    rw [ho] at hnem
                    have ho' : o = req.room_number := by
                      by_contra hx
                      exact hcond ⟨fun he => hnem (by rw [he]), hx⟩
                    apply releasedRooms_self db u0 _
                    rw [ho, ho']
                    exact Or.inr rfl
                · case _ ho => exact releasedRooms_self db u0 _ (Or.inl ho)
              have hmoved : MovedRooms db u0 req.room_number
                  (setRoomStatus (releaseOldRoom db req.room_number u0)
                    req.room_number "occupied").rooms :=
                movedRooms_claim_map db _ u0 _ hrel
              have husers : (setRoomStatus (releaseOldRoom db req.room_number u0)
                  req.room_number "occupied").users.map (fun u =>
                    if u.user_id == uid then applyUserFields req u else u) =
                  db.users.map fun u =>
                    if u.user_id == uid then applyUserFields req u else u := by
                rw [show (setRoomStatus (releaseOldRoom db req.room_number u0)
                    req.room_number "occupied").users =
                    (releaseOldRoom db req.room_number u0).users from rfl,
                  releaseOldRoom_users]
              exact consistent_after_user_move db _ uid req u0 h hfind honly hrnv
                husers (releaseOldRoom_next_user_id db req.room_number u0) hmoved
          · injection hok with h1 h2
            cases h2

/-- Every non-500 failure of PUT /api/users/:user_id is raised before the
first write and leaves the store unchanged; only the mid-way 500s (malformed
placeholder INSERT, duplicate-username UPDATE) carry partial state. -/
theorem updateUser_state_of_error (db db' : DB) (uid : Nat) (req : UpdateUserReq)
    (e : ApiError) (hrun : updateUser db uid req = (db', .error e))
    (hne : e ≠ .serverError) : db' = db := by
  unfold updateUser at hrun
  split at hrun
  · injection hrun with h1 h2
    exact h1.symm
  · split at hrun
    · injection hrun with h1 h2
      exact h1.symm
    · split at hrun
      · injection hrun with h1 h2
        exact h1.symm
      · split at hrun
        · injection hrun with h1 h2
          exact h1.symm
        · unfold performMove claimAndRewrite rewriteUserRow at hrun
          split at hrun
          · split at hrun
            · injection hrun with h1 h2
              injection h2 with h3
              exact absurd h3.symm hne
            · injection hrun with h1 h2
              cases h2
          · injection hrun with h1 h2
            injection h2 with h3
            exact absurd h3.symm hne

/-- DELETE /api/users/:user_id preserves the occupancy invariant. -/
theorem deleteUser_preserves (db : DB) (uid : Nat) (db' : DB)
    (h : Consistent db) (hok : deleteUser db uid = .ok db') : Consistent db' := by
  unfold deleteUser at hok
  split at hok
  · cases hok
  · case _ u0 hfind =>
    have hu0mem : u0 ∈ db.users := List.mem_of_find?_eq_some hfind
    have hcntf : ∀ p : User → Bool,
        (db.users.filter fun v => v.user_id != uid).countP p +
          (if p u0 then 1 else 0) = db.users.countP p :=
      fun p => countP_filter_out db.users uid u0 p h.ids_nodup hfind
    have hids : ((db.users.filter fun v => v.user_id != uid).map User.user_id).Nodup :=
      ((List.filter_sublist db.users).map User.user_id).nodup h.ids_nodup
    split at hok
    · case _ rn hrnu =>
      split at hok
      · case _ hrnne =>
        injection hok with hdb'
        subst hdb'
        have hKa : occCount (db.users.filter fun v => v.user_id != uid) rn = 0 := by
          have h1 := hcntf fun u => u.room_number == some rn
          have hp : (u0.room_number == some rn) = true := by simp [hrnu]
          rw [hp] at h1
          simp only [if_true, ite_true] at h1
          have hge : 0 < List.countP (fun u => u.room_number == some rn) db.users :=
            List.countP_pos_iff.mpr ⟨u0, hu0mem, by simp [hrnu]⟩
          have hle := h.at_most_one rn
          unfold occCount at hle ⊢
          omega
        have hKb : ∀ rn', rn' ≠ rn →
            occCount (db.users.filter fun v => v.user_id != uid) rn' =
              occCount db.users rn' := by
          intro rn' hne
          have h1 := hcntf fun u => u.room_number == some rn'
          have hp : (u0.room_number == some rn') = false := by
            rw [beq_eq_false_iff_ne, hrnu]
            exact fun hh => hne (Option.some.inj hh).symm
          rw [hp] at h1
          simp only [Bool.false_eq_true, if_false, ite_false, Nat.add_zero] at h1
          exact h1
        constructor
        · intro u hu
          have hu' : u ∈ db.users.filter fun v => v.user_id != uid := hu
          exact h.ids_lt u (List.mem_of_mem_filter hu')
        · exact hids
        · intro u hu
          have hu' : u ∈ db.users.filter fun v => v.user_id != uid := hu
          exact h.refs_nonempty u (List.mem_of_mem_filter hu')
        · intro rn'
          show occCount (db.users.filter fun v => v.user_id != uid) rn' ≤ 1
          by_cases hne : rn' = rn
          · rw [hne, hKa]
            omega
          · rw [hKb rn' hne]
            exact h.at_most_one rn'
        · intro r' hr'
          obtain ⟨r0, hr0, hnum, hcases⟩ :=
            setRoomStatus_mem_cases _ rn "available" r' hr'
          have hr0db : r0 ∈ db.rooms := hr0
          show r'.status = "occupied" ↔
            occCount (db.users.filter fun v => v.user_id != uid) r'.room_number = 1
          rcases hcases with ⟨hmatch, hst⟩ | ⟨hnmatch, hr'eq⟩
          · rw [hst, hnum, hmatch, hKa]
            decide
          · rw [hnum, hKb r0.room_number hnmatch, hr'eq]
            exact h.occ_iff r0 hr0db
        · intro r' hr' hne1
          obtain ⟨r0, hr0, hnum, hcases⟩ :=
            setRoomStatus_mem_cases _ rn "available" r' hr'
          have hr0db : r0 ∈ db.rooms := hr0
          have hne1' : occCount (db.users.filter fun v => v.user_id != uid)
              r'.room_number ≠ 1 := hne1
          rcases hcases with ⟨hmatch, hst⟩ | ⟨hnmatch, hr'eq⟩
          · exact hst
          · rw [hnum, hKb r0.room_number hnmatch] at hne1'
            rw [hr'eq]
            exact h.avail_of_ne r0 hr0db hne1'
      · case _ hrne =>
        exfalso
        have hnem := h.refs_nonempty u0 hu0mem
        rw [hrnu] at hnem
        have : rn = "" := not_not.mp hrne
        subst this
        exact hnem rfl
    · case _ hrnu =>
      injection hok with hdb'
      subst hdb'
      have hKb : ∀ rn',
          occCount (db.users.filter fun v => v.user_id != uid) rn' =
            occCount db.users rn' := by
        intro rn'
        have h1 := hcntf fun u => u.room_number == some rn'
        have hp : (u0.room_number == some rn') = false := by rw [hrnu]; rfl
        rw [hp] at h1
        simp only [Bool.false_eq_true, if_false, ite_false, Nat.add_zero] at h1
        exact h1
      constructor
      · intro u hu
        have hu' : u ∈ db.users.filter fun v => v.user_id != uid := hu
        exact h.ids_lt u (List.mem_of_mem_filter hu')
      · exact hids
      · intro u hu
        have hu' : u ∈ db.users.filter fun v => v.user_id != uid := hu
        exact h.refs_nonempty u (List.mem_of_mem_filter hu')
      · intro rn'
        show occCount (db.users.filter fun v => v.user_id != uid) rn' ≤ 1
        rw [hKb rn']
        exact h.at_most_one rn'
      · intro r' hr'
        have hr'' : r' ∈ db.rooms := hr'
        show r'.status = "occupied" ↔
          occCount (db.users.filter fun v => v.user_id != uid) r'.room_number = 1
        rw [hKb r'.room_number]
        exact h.occ_iff r' hr''
      · intro r' hr' hne1
        have hr'' : r' ∈ db.rooms := hr'
        have hne1' : occCount (db.users.filter fun v => v.user_id != uid)
            r'.room_number ≠ 1 := hne1
        rw [hKb r'.room_number] at hne1'
        exact h.avail_of_ne r' hr'' hne1'

/-- A tenant operation that does not fail mid-way preserves the occupancy
invariant: registrations and deletions always, tenant updates when their
handler either completes or rejects before its first write. -/
theorem applyTenantOp_preserves (db : DB) (op : TenantOp) (h : Consistent db)
    (hsafe : opSafeB db op = true) : Consistent (applyTenantOp db op) := by
  cases op with
  | registerOp req =>
    show Consistent (match register db req with
      | .ok (db', _) => db'
      | .error _ => db)
    cases hr : register db req with
    | ok p =>
      obtain ⟨db', uid⟩ := p
      exact register_preserves db req db' uid h hr
    | error e => exact h
  | updateOp uid req =>
    show Consistent (updateUser db uid req).1
    cases hr : updateUser db uid req with
    | mk db2 res =>
      cases res with
      | ok u =>
        cases u
        exact updateUser_preserves db db2 uid req h hr
      | error e =>
        have hne : e ≠ .serverError := by
          intro he
          subst he
          simp only [opSafeB] at hsafe
          rw [hr] at hsafe
          simp [isServerError] at hsafe
        rw [updateUser_state_of_error db db2 uid req e hr hne]
        exact h
  | deleteOp uid =>
    show Consistent (match deleteUser db uid with
      | .ok db' => db'
      | .error _ => db)
    cases hr : deleteUser db uid with
    | ok db' => exact deleteUser_preserves db uid db' h hr
    | error e => exact h

/-- A mid-way 500 of PUT /api/users/:user_id leaves the invariant broken: on
`c3db` (alice the sole occupant of room "101"), updating her to the unknown
room "999" releases room "101" to 'available' and then fails on the malformed
placeholder INSERT, leaving an 'available' room that exactly one tenant still
references. -/
theorem updateUser_midway_failure_breaks_invariant :
    (updateUser c3db 1 c3req).2 = .error .serverError ∧
    ∃ r ∈ (updateUser c3db 1 c3req).1.rooms,
      r.status = "available" ∧
        occCount (updateUser c3db 1 c3req).1.users r.room_number = 1 :=
  ⟨rfl, by decide⟩

/-- C2 (amended): every sequence of create/update/delete Tenant operations
run from a consistent store, in which no tenant update fails mid-way with the
handler's 500 (its two causes — the malformed placeholder INSERT for an
unknown target room and a duplicate-username failure of the users UPDATE —
strike after room-status writes are already committed and leave partial
state), keeps at all times every room's status equal to 'occupied' exactly
when one tenant references it, and 'available' otherwise.  (The further
clause of the claim — that no operation sets Room.status independently of
occupancy — fails for POST /api/rooms, see the counterexample.) -/
theorem tenantOps_preserve_consistency (db : DB) (ops : List TenantOp)
    (h : Consistent db) (hsafe : opsSafe db ops = true) :
    Consistent (ops.foldl applyTenantOp db) := by
  induction ops generalizing db with
  | nil => exact h
  | cons op ops ih =>
    simp only [opsSafe, Bool.and_eq_true] at hsafe
    exact ih (applyTenantOp db op) (applyTenantOp_preserves db op h hsafe.1) hsafe.2

/-- The sample store (room "101" available, no tenants) is consistent. -/
theorem consistent_sampleDB : Consistent sampleDB := by
  refine ⟨by decide, by decide, by decide, ?_, by decide, by decide⟩
  intro rn
  simp [sampleDB, occCount]

/-- C2 witness: registering bob into room "101", a self-move update and the
tenant's deletion — a safe sequence — keeps the sample store consistent. -/
theorem tenantOps_preserve_consistency_witness :
    Consistent (List.foldl applyTenantOp sampleDB sampleOps) :=
  tenantOps_preserve_consistency sampleDB sampleOps consistent_sampleDB (by decide)

/-- C10 witness: on the empty store every one of the three queries rejects
with its 404 error. -/
theorem empty_results_not_found_witness :
    getBills emptyDB false (some 1) = .error .billsNotFound ∧
    getBills emptyDB true none = .error .billsNotFound ∧
    getPaymentHistory emptyDB 1 = .error .historyNotFound :=
  ⟨(empty_results_not_found emptyDB 1).1 rfl, (empty_results_not_found emptyDB 1).2.1 rfl,
    (empty_results_not_found emptyDB 1).2.2 rfl⟩

end RentalApi
